import Mathlib

/-!
Shallow embedding of `src/libstd/sys/unix/process/process_unix.rs`:
Unix process spawning with a fork/exec fallback path reporting failures
over an anonymous pipe, a `posix_spawn` fast path, candidate-path
resolution over PATH, and the `Process` handle with its cached exit
status.
-/

set_option autoImplicit false

/-- Error kinds of `io::ErrorKind` that this module distinguishes. -/
inductive EKind
| notFound
| permissionDenied
| timedOut
| interrupted
| invalidInput
| otherKind
deriving DecidableEq, Repr

/-- An `io::Error`: its kind and, when it was built from a raw OS error
code (`Error::from_raw_os_error` / `Error::last_os_error`), that code;
`code = none` models custom errors whose `raw_os_error()` is `None`. -/
structure IoError where
  kind : EKind
  code : Option Int
deriving DecidableEq, Repr

/-- Modelled from the spec: the decoding of a raw OS error code into an
error kind (`decode_error_kind`, which lives outside this tree).  The
spec's error taxonomy distinguishes not-found, permission-denied and a
bounded (timed-out) equivalent; these correspond to the POSIX codes
ENOENT(2), EACCES(13) and ETIMEDOUT(110), plus EINTR(4) for interrupted
calls; every other code maps to an undistinguished kind. -/
def errorKindOfRaw (n : Int) : EKind :=
  if n = 2 then .notFound
  else if n = 13 then .permissionDenied
  else if n = 110 then .timedOut
  else if n = 4 then .interrupted
  else .otherKind

/-- `io::Error::from_raw_os_error(n)` -/
def fromRawOsError (n : Int) : IoError := { kind := errorKindOfRaw n, code := some n }

/-- `x as u32` applied to a Rust `i32` value: two's-complement low 32 bits. -/
def toU32 (n : Int) : Nat := (n % (2 ^ 32 : Int)).toNat

/-- `x as i32` applied to a Rust `u32`-sized value: low 32 bits read back in
two's complement. -/
def toI32 (v : Nat) : Int :=
  if v % 2 ^ 32 < 2 ^ 31 then ((v % 2 ^ 32 : Nat) : Int)
  else ((v % 2 ^ 32 : Nat) : Int) - 2 ^ 32

/-- `const CLOEXEC_MSG_FOOTER: &[u8] = b"NOEX"` -/
def CLOEXEC_MSG_FOOTER : List Nat := [78, 79, 69, 88]

/-- `fn combine(arr: &[u8]) -> i32`: big-endian assembly
`((a << 24) | (b << 16) | (c << 8) | (d << 0)) as i32` of the first four
bytes of the slice (each a `u8`, hence `< 256`). -/
def combine (arr : List Nat) : Int :=
  toI32 ((arr.getD 0 0 <<< 24) ||| (arr.getD 1 0 <<< 16) ||| (arr.getD 2 0 <<< 8) |||
    arr.getD 3 0)

/-- The child-side encoding of `errno` (a `u32`) into the four leading
message bytes: `(errno >> 24) as u8`, `(errno >> 16) as u8`,
`(errno >> 8) as u8`, `(errno >> 0) as u8`. -/
def errnoBytes (errno : Nat) : List Nat :=
  [errno >>> 24 % 256, errno >>> 16 % 256, errno >>> 8 % 256, errno >>> 0 % 256]

/-- The 8-byte message the child writes on a failed exec: the OS error code
(`err.raw_os_error().unwrap_or(libc::EINVAL) as u32`) in big endian followed
by the fixed footer. -/
def encodeErrMsg (code : Int) : List Nat := errnoBytes (toU32 code) ++ CLOEXEC_MSG_FOOTER

/-- The message written for a given child-side `io::Error`; EINVAL = 22 is
substituted when the error carries no raw OS code. -/
def childErrMsg (e : IoError) : List Nat := encodeErrMsg (e.code.getD 22)

theorem lor_eq_add_byte (a b i : Nat) (hb : b < 2 ^ i) : a * 2 ^ i ||| b = a * 2 ^ i + b := by
  rw [Nat.mul_comm a]
  exact (Nat.mul_add_lt_is_or hb a).symm

theorem combine4 (a b c d : Nat) (hb : b < 256) (hc : c < 256)
    (hd : d < 256) :
    (a <<< 24) ||| (b <<< 16) ||| (c <<< 8) ||| d =
      a * 2 ^ 24 + b * 2 ^ 16 + c * 2 ^ 8 + d := by
  rw [Nat.shiftLeft_eq, Nat.shiftLeft_eq, Nat.shiftLeft_eq, Nat.or_assoc, Nat.or_assoc]
  rw [lor_eq_add_byte c d 8 (by omega)]
  rw [lor_eq_add_byte b (c * 2 ^ 8 + d) 16 (by omega)]
  rw [lor_eq_add_byte a (b * 2 ^ 16 + (c * 2 ^ 8 + d)) 24 (by omega)]
  ring

theorem combine_errnoBytes (u : Nat) (hu : u < 2 ^ 32) :
    combine (errnoBytes u) = toI32 u := by
  show toI32 _ = toI32 u
  congr 1
  simp only [errnoBytes, List.getD, List.get?_cons_zero, List.get?_cons_succ,
    Option.getD_some]
  rw [Nat.shiftRight_eq_div_pow, Nat.shiftRight_eq_div_pow, Nat.shiftRight_eq_div_pow,
    Nat.shiftRight_eq_div_pow]
  rw [combine4 _ _ _ _ (Nat.mod_lt _ (by omega)) (Nat.mod_lt _ (by omega))
    (Nat.mod_lt _ (by omega))]
  omega

theorem toU32_lt (code : Int) : toU32 code < 2 ^ 32 := by
  unfold toU32
  omega

theorem toI32_toU32 (code : Int) (hlo : -(2 ^ 31) ≤ code) (hhi : code < 2 ^ 31) :
    toI32 (toU32 code) = code := by
  unfold toI32 toU32
  split <;> omega

/-- C2: for every representable 32-bit OS error code, including zero, the
8-byte error message (4 bytes big-endian code, then the fixed 4-byte marker)
decodes back, via `combine` on its leading 4 bytes, to the same code; the
message is exactly 8 bytes and its trailing 4 bytes are the marker. -/
theorem encode_decode_roundtrip (code : Int) (hlo : -(2 ^ 31) ≤ code)
    (hhi : code < 2 ^ 31) :
    combine ((encodeErrMsg code).take 4) = code ∧
    (encodeErrMsg code).length = 8 ∧
    (encodeErrMsg code).drop 4 = CLOEXEC_MSG_FOOTER := by
  refine ⟨?_, ?_, ?_⟩
  · have htake : (encodeErrMsg code).take 4 = errnoBytes (toU32 code) := by
      simp [encodeErrMsg, errnoBytes, CLOEXEC_MSG_FOOTER]
    rw [htake, combine_errnoBytes _ (toU32_lt code), toI32_toU32 code hlo hhi]
  · simp [encodeErrMsg, errnoBytes, CLOEXEC_MSG_FOOTER]
  · simp [encodeErrMsg, errnoBytes, CLOEXEC_MSG_FOOTER]

/-- Rust `slice::split(|p| *p == b':')` on a byte string (`b':' = 58`):
splits on every colon byte; adjacent, leading and trailing separators produce
empty segments, and the empty input yields a single empty segment. -/
def splitColon : List Nat → List (List Nat)
| [] => [[]]
| b :: rest =>
  if b = 58 then [] :: splitColon rest
  else
    match splitColon rest with
    | [] => [[b]]
    | s :: ss => (b :: s) :: ss

/-- The byte string `b"PATH="`. -/
def PATHEQ : List Nat := [80, 65, 84, 72, 61]

/-- `Command::compute_possible_paths`: `program` and environment entries are
byte strings (`b'/' = 47`); `maybe_envp` is the captured child environment
(`None` when the parent's environment is inherited unchanged) and
`parentPath` is `env::var("PATH").ok()` of the parent process. -/
def compute_possible_paths (program : List Nat) (maybe_envp : Option (List (List Nat)))
    (parentPath : Option (List Nat)) : Option (List (List Nat)) :=
  if 47 ∈ program then none
  else
    let paths? : Option (List Nat) :=
      match maybe_envp with
      | some envp =>
        match envp.find? (fun v => v.take 5 == PATHEQ) with
        | some p => some (p.drop 5)
        | none => none
      | none => parentPath
    match paths? with
    | none => none
    | some paths => some ((splitColon paths).map (fun path => path ++ 47 :: program))

theorem getD_map_lt {α β : Type} (f : α → β) (l : List α) (i : Nat) (h : i < l.length)
    (d : β) (d' : α) : (l.map f).getD i d = f (l.getD i d') := by
  have h2 : i < (l.map f).length := by simpa using h
  rw [List.getD_eq_getElem _ _ h2, List.getD_eq_getElem _ _ h, List.getElem_map]

/-- C3: candidate-path computation.  A program containing the path separator
yields no candidate list; with an environment override only that override's
PATH entry governs (no fallback to the parent's PATH, so the result does not
depend on it, and is absent when the override lacks a PATH entry); with no
override the parent's PATH governs and an unset one yields no list; when a
governing value exists, the candidates are the value split on colons with
`dir/program` built per segment, preserving order and count. -/
theorem compute_possible_paths_spec :
    (∀ program envp pp, 47 ∈ program →
       compute_possible_paths program envp pp = none) ∧
    (∀ program envp pp pp', compute_possible_paths program (some envp) pp =
       compute_possible_paths program (some envp) pp') ∧
    (∀ program envp pp, 47 ∉ program → (∀ v ∈ envp, ¬ v.take 5 = PATHEQ) →
       compute_possible_paths program (some envp) pp = none) ∧
    (∀ program envp pp p, 47 ∉ program →
       envp.find? (fun v => v.take 5 == PATHEQ) = some p →
       compute_possible_paths program (some envp) pp =
         some ((splitColon (p.drop 5)).map (fun dir => dir ++ 47 :: program))) ∧
    (∀ program, 47 ∉ program → compute_possible_paths program none none = none) ∧
    (∀ program v, 47 ∉ program →
       compute_possible_paths program none (some v) =
         some ((splitColon v).map (fun dir => dir ++ 47 :: program))) ∧
    (∀ program v cs, 47 ∉ program →
       compute_possible_paths program none (some v) = some cs →
       cs.length = (splitColon v).length ∧
       ∀ i, i < cs.length →
         cs.getD i [] = (splitColon v).getD i [] ++ 47 :: program) := by
  refine ⟨?_, ?_, ?_, ?_, ?_, ?_, ?_⟩
  · intro program envp pp h
    simp [compute_possible_paths, h]
  · intro program envp pp pp'
    simp only [compute_possible_paths]
  · intro program envp pp h hn
    have : envp.find? (fun v => v.take 5 == PATHEQ) = none := by
      rw [List.find?_eq_none]
      intro v hv
      simpa using hn v hv
    simp [compute_possible_paths, h, this]
  · intro program envp pp p h hf
    simp [compute_possible_paths, h, hf]
  · intro program h
    simp [compute_possible_paths, h]
  · intro program v h
    simp [compute_possible_paths, h]
  · intro program v cs h heq
    have h6 : compute_possible_paths program none (some v) =
        some ((splitColon v).map (fun dir => dir ++ 47 :: program)) := by
      simp [compute_possible_paths, h]
    rw [h6] at heq
    have hcs := (Option.some_injective _ heq).symm
    subst hcs
    constructor
    · simp
    · intro i hi
      have hi2 : i < (splitColon v).length := by simpa using hi
      exact getD_map_lt _ _ i hi2 [] []

/-- Witness for C3: program `ls`, an override carrying `PATH=/bin`, and a
missing parent PATH. -/
theorem compute_possible_paths_spec_witness :
    compute_possible_paths [108, 115] (some [[80, 65, 84, 72, 61, 47, 98, 105, 110]]) none =
      some [[47, 98, 105, 110, 47, 108, 115]] ∧
    compute_possible_paths [108, 115] none none = none := by
  have h := compute_possible_paths_spec
  refine ⟨?_, ?_⟩
  · rw [h.2.2.2.1 [108, 115] [[80, 65, 84, 72, 61, 47, 98, 105, 110]] none
      [80, 65, 84, 72, 61, 47, 98, 105, 110] (by decide) (by decide)]
    decide
  · exact h.2.2.2.2.1 [108, 115] (by decide)

/-- C10: an empty PATH segment (leading colon, trailing colon, or a doubled
colon, as produced by the colon split) yields the candidate `'/' ++ program`
— an absolute path in the root directory — and the segment is not skipped:
the candidate list keeps one entry per segment. -/
theorem empty_path_segment_candidate :
    (∀ v, splitColon (58 :: v) = [] :: splitColon v) ∧
    (splitColon [58] = [[], []]) ∧
    (∀ program v cs, 47 ∉ program →
      compute_possible_paths program none (some v) = some cs →
      cs.length = (splitColon v).length ∧
      ∀ i, i < cs.length → (splitColon v).getD i [] = [] →
        cs.getD i [] = 47 :: program) := by
  refine ⟨?_, by decide, ?_⟩
  · intro v
    simp [splitColon]
  · intro program v cs h heq
    have h6 : compute_possible_paths program none (some v) =
        some ((splitColon v).map (fun dir => dir ++ 47 :: program)) := by
      simp [compute_possible_paths, h]
    rw [h6] at heq
    have hcs := (Option.some_injective _ heq).symm
    subst hcs
    refine ⟨by simp, ?_⟩
    intro i hi hseg
    have hi2 : i < (splitColon v).length := by simpa using hi
    rw [getD_map_lt _ _ i hi2 [] [], hseg]
    rfl

/-- Witness for C10: program `ls` with the PATH value `":"`, whose two
segments are both empty and both yield the candidate `/ls`. -/
theorem empty_path_segment_candidate_witness :
    splitColon [58] = [[], []] ∧
    (([[47, 108, 115], [47, 108, 115]] : List (List Nat)).getD 0 [] =
      47 :: [108, 115]) := by
  have h := empty_path_segment_candidate
  refine ⟨h.2.1, ?_⟩
  exact (h.2.2 [108, 115] [58] [[47, 108, 115], [47, 108, 115]] (by decide)
    (by decide)).2 0 (by decide) (by decide)

/-- Witness for C2 at the code 0. -/
theorem encode_decode_roundtrip_witness :
    -(2 ^ 31) ≤ (0 : Int) ∧ (0 : Int) < 2 ^ 31 ∧
    (combine ((encodeErrMsg 0).take 4) = 0 ∧
     (encodeErrMsg 0).length = 8 ∧
     (encodeErrMsg 0).drop 4 = CLOEXEC_MSG_FOOTER) :=
  ⟨by norm_num, by norm_num,
   encode_decode_roundtrip 0 (by norm_num) (by norm_num)⟩

/-- Events observable in the child between process duplication and image
replacement: the OS calls `Command::do_exec` makes, in order. -/
inductive Ev
| dup2 (fd tgt : Int)
| setgid (g : Nat)
| setgroups
| setuid (u : Nat)
| chdir (d : List Nat)
| sigreset
| sigpipeDefault
| preExecCall (i : Nat)
| execveCall (path : List Nat)
deriving DecidableEq, Repr

/-- Outcome of one `libc::execve` attempt: on success the call never returns
(the image is replaced); on failure the errno is read back as the
`io::Error` of `Error::last_os_error()`. -/
inductive ExecStep
| replaced
| failed (e : IoError)
deriving DecidableEq, Repr

/-- Result of the child-side setup-and-exec sequence: either the process
image was replaced via the given path, or an `io::Error` is produced (which
the child then reports over the error pipe). -/
inductive DoExecResult
| replaced (path : List Nat)
| err (e : IoError)
deriving DecidableEq, Repr

/-- The candidate-list exec loop of `Command::do_exec`: attempt `execve` on
each candidate in order; remember the first permission-denied failure and
continue; skip not-found and timed-out failures; return any other failure
immediately; on exhaustion return the remembered permission-denied error if
any, else `Error::from_raw_os_error(libc::ENOENT)`.  The first component
lists the `execve` calls actually made, in order. -/
def execSearch (f : List Nat → ExecStep) :
    List (List Nat) → Option IoError → List Ev × DoExecResult
| [], pending =>
  ([], .err (match pending with | some e => e | none => fromRawOsError 2))
| p :: rest, pending =>
  match f p with
  | .replaced => ([Ev.execveCall p], .replaced p)
  | .failed e =>
    match e.kind with
    | .permissionDenied =>
      let r := execSearch f rest (match pending with | none => some e | some e0 => some e0)
      (Ev.execveCall p :: r.1, r.2)
    | .notFound =>
      let r := execSearch f rest pending
      (Ev.execveCall p :: r.1, r.2)
    | .timedOut =>
      let r := execSearch f rest pending
      (Ev.execveCall p :: r.1, r.2)
    | _ => ([Ev.execveCall p], .err e)

/-- Failure kinds on which the exec search continues to the next candidate. -/
def continuableKind : EKind → Bool
| .permissionDenied => true
| .notFound => true
| .timedOut => true
| _ => false

/-- An attempt outcome that ends the search: a successful replacement or a
failure of a non-continuable kind. -/
def decisive : ExecStep → Bool
| .replaced => true
| .failed e => !(continuableKind e.kind)

/-- The first permission-denied failure along the candidate list. -/
def firstPermError (f : List Nat → ExecStep) : List (List Nat) → Option IoError
| [] => none
| p :: rest =>
  match f p with
  | .failed e => if e.kind = .permissionDenied then some e else firstPermError f rest
  | .replaced => firstPermError f rest

/-- The candidates the loop actually attempts: every candidate up to and
including the first decisive one. -/
def attemptedPaths (f : List Nat → ExecStep) : List (List Nat) → List (List Nat)
| [] => []
| p :: rest => if decisive (f p) then [p] else p :: attemptedPaths f rest

/-- Declarative description of the exec loop: the first decisive candidate
determines the result (replacement, or the fatal error); if no candidate is
decisive the loop exhausts and yields the pending error carried in, else the
first permission-denied failure, else not-found (ENOENT). -/
def specSearchP (f : List Nat → ExecStep) (l : List (List Nat))
    (pending : Option IoError) : DoExecResult :=
  match l.find? (fun p => decisive (f p)) with
  | some p =>
    match f p with
    | .replaced => .replaced p
    | .failed e => .err e
  | none =>
    match pending with
    | some e0 => .err e0
    | none =>
      match firstPermError f l with
      | some e => .err e
      | none => .err (fromRawOsError 2)

theorem execSearch_eq_specP (f : List Nat → ExecStep) (l : List (List Nat))
    (pending : Option IoError) :
    execSearch f l pending =
      ((attemptedPaths f l).map Ev.execveCall, specSearchP f l pending) := by
  induction l generalizing pending with
  | nil =>
    cases pending <;>
      simp [execSearch, attemptedPaths, specSearchP, firstPermError]
  | cons p rest ih =>
    cases hfp : f p with
    | replaced =>
      have hdec : decisive (f p) = true := by simp [decisive, hfp]
      simp [execSearch, hfp, attemptedPaths, decisive, specSearchP, List.find?_cons]
    | failed e =>
      cases hk : e.kind with
      | permissionDenied =>
        have hdec : decisive (f p) = false := by
          simp [decisive, hfp, continuableKind, hk]
        simp only [execSearch, hfp, hk]
        rw [ih]
        cases pending with
        | none =>
          simp [attemptedPaths, decisive, continuableKind, specSearchP,
            List.find?_cons, firstPermError, hfp, hk]
        | some e0 =>
          simp [attemptedPaths, decisive, continuableKind, specSearchP,
            List.find?_cons, firstPermError, hfp, hk]
      | notFound =>
        have hdec : decisive (f p) = false := by
          simp [decisive, hfp, continuableKind, hk]
        simp only [execSearch, hfp, hk]
        rw [ih]
        cases pending with
        | none =>
          simp [attemptedPaths, decisive, continuableKind, specSearchP,
            List.find?_cons, firstPermError, hfp, hk]
        | some e0 =>
          simp [attemptedPaths, decisive, continuableKind, specSearchP,
            List.find?_cons, firstPermError, hfp, hk]
      | timedOut =>
        have hdec : decisive (f p) = false := by
          simp [decisive, hfp, continuableKind, hk]
        simp only [execSearch, hfp, hk]
        rw [ih]
        cases pending with
        | none =>
          simp [attemptedPaths, decisive, continuableKind, specSearchP,
            List.find?_cons, firstPermError, hfp, hk]
        | some e0 =>
          simp [attemptedPaths, decisive, continuableKind, specSearchP,
            List.find?_cons, firstPermError, hfp, hk]
      | interrupted =>
        have hdec : decisive (f p) = true := by
          simp [decisive, hfp, continuableKind, hk]
        simp [execSearch, hfp, hk, attemptedPaths, decisive, continuableKind,
          specSearchP, List.find?_cons]
      | invalidInput =>
        have hdec : decisive (f p) = true := by
          simp [decisive, hfp, continuableKind, hk]
        simp [execSearch, hfp, hk, attemptedPaths, decisive, continuableKind,
          specSearchP, List.find?_cons]
      | otherKind =>
        have hdec : decisive (f p) = true := by
          simp [decisive, hfp, continuableKind, hk]
        simp [execSearch, hfp, hk, attemptedPaths, decisive, continuableKind,
          specSearchP, List.find?_cons]

/-- C4: the child-side exec loop over a candidate list attempts candidates
in list order up to the first decisive one; the first permission-denied
failure is remembered and the search continues; not-found and timed-out
failures continue the search; any other failure is returned immediately; on
exhaustion the remembered permission-denied error is returned if one exists,
otherwise a not-found (ENOENT) error. -/
theorem do_exec_path_search_spec (f : List Nat → ExecStep) (l : List (List Nat)) :
    execSearch f l none =
      ((attemptedPaths f l).map Ev.execveCall, specSearchP f l none) :=
  execSearch_eq_specP f l none

/-- The resolved execution specification a `Command` carries into `spawn` /
`do_exec` (assembled by `process_common`, consumed here as data): program
and arguments as byte strings, the captured environment override
(`capture_env()`; `none` when the parent's environment is inherited
unchanged), optional working directory and credentials, the pre-exec
closures modelled by their results in registration order, and the
`env_saw_path()` flag recording whether an environment operation touched
PATH. -/
structure Command where
  program : List Nat
  args : List (List Nat)
  envOverride : Option (List (List Nat))
  cwd : Option (List Nat)
  gid : Option Nat
  uid : Option Nat
  preExec : List (Except IoError Unit)
  envSawPath : Bool

/-- The resolved descriptors to install over the standard streams
(`ChildPipes`); `none` models `fd()` returning `None`. -/
structure ChildPipes where
  stdin : Option Int
  stdout : Option Int
  stderr : Option Int

/-- The OS responses the child-side sequence consumes, one field per syscall
site of `do_exec`.  `setgroups` is the result of `libc::setgroups(0, NULL)`,
which the code discards (`let _ = …`); `sigreset` covers the `t!`-checked
`sigemptyset` + `pthread_sigmask` pair and `sigpipe` the
`signal(SIGPIPE, SIG_DFL)` call with its `SIG_ERR` check. -/
structure DoExecOS where
  dup2 : Int → Int → Except IoError Unit
  setgid : Nat → Except IoError Unit
  setgroups : Except IoError Unit
  setuid : Nat → Except IoError Unit
  chdir : List Nat → Except IoError Unit
  sigreset : Except IoError Unit
  sigpipe : Except IoError Unit
  execve : List Nat → ExecStep

/-- Sequencing of traced, fallible child-side steps: on failure later steps
do not run (the `t!` macro returns the error immediately). -/
def andThen (a : List Ev × Option IoError) (b : Unit → List Ev × Option IoError) :
    List Ev × Option IoError :=
  match a with
  | (evs, some e) => (evs, some e)
  | (evs, none) =>
    let r := b ()
    (evs ++ r.1, r.2)

/-- One `if let Some(fd) = stdio.….fd() { t!(cvt_r(|| libc::dup2(fd, TGT))) }`
step. -/
def dupStep (os : DoExecOS) (fd? : Option Int) (tgt : Int) : List Ev × Option IoError :=
  match fd? with
  | none => ([], none)
  | some fd =>
    match os.dup2 fd tgt with
    | .ok _ => ([Ev.dup2 fd tgt], none)
    | .error e => ([Ev.dup2 fd tgt], some e)

/-- Stdio setup: stdin, stdout, stderr onto stream numbers 0, 1, 2. -/
def stdioPhase (stdio : ChildPipes) (os : DoExecOS) : List Ev × Option IoError :=
  andThen (dupStep os stdio.stdin 0) (fun _ =>
    andThen (dupStep os stdio.stdout 1) (fun _ =>
      dupStep os stdio.stderr 2))

/-- Credential setup: apply the group id first; then, immediately after the
ignored best-effort `setgroups(0, NULL)`, the user id.  Either `cvt` failure
aborts the sequence (`t!`). -/
def credPhase (c : Command) (os : DoExecOS) : List Ev × Option IoError :=
  andThen (match c.gid with
           | none => ([], none)
           | some g =>
             match os.setgid g with
             | .ok _ => ([Ev.setgid g], none)
             | .error e => ([Ev.setgid g], some e)) (fun _ =>
    match c.uid with
    | none => ([], none)
    | some u =>
      match os.setuid u with
      | .ok _ => ([Ev.setgroups, Ev.setuid u], none)
      | .error e => ([Ev.setgroups, Ev.setuid u], some e))

/-- `if let Some(ref cwd) = *self.get_cwd() { t!(cvt(libc::chdir(…))) }` -/
def cwdPhase (c : Command) (os : DoExecOS) : List Ev × Option IoError :=
  match c.cwd with
  | none => ([], none)
  | some d =>
    match os.chdir d with
    | .ok _ => ([Ev.chdir d], none)
    | .error e => ([Ev.chdir d], some e)

/-- Signal-state reset: clear the blocked-signal mask, then restore SIGPIPE's
default disposition. -/
def sigPhase (os : DoExecOS) : List Ev × Option IoError :=
  andThen (match os.sigreset with
           | .ok _ => ([Ev.sigreset], none)
           | .error e => ([Ev.sigreset], some e)) (fun _ =>
    match os.sigpipe with
    | .ok _ => ([Ev.sigpipeDefault], none)
    | .error e => ([Ev.sigpipeDefault], some e))

/-- `for callback in self.get_closures().iter_mut() { t!(callback()); }` —
run the pre-exec callbacks in registration order, stopping at the first
failure. -/
def preExecPhase (i : Nat) : List (Except IoError Unit) → List Ev × Option IoError
| [] => ([], none)
| r :: rest =>
  match r with
  | .ok _ =>
    let t := preExecPhase (i + 1) rest
    (Ev.preExecCall i :: t.1, t.2)
  | .error e => ([Ev.preExecCall i], some e)

/-- `Command::do_exec`: the full child-side sequence — stdio dup2s,
credentials, working directory, signal reset, pre-exec callbacks, then exec
(over the candidate list when present, else one literal `execve` of the
program). -/
def do_exec (c : Command) (stdio : ChildPipes) (os : DoExecOS)
    (maybe_possible_paths : Option (List (List Nat))) : List Ev × DoExecResult :=
  let setup :=
    andThen (stdioPhase stdio os) (fun _ =>
      andThen (credPhase c os) (fun _ =>
        andThen (cwdPhase c os) (fun _ =>
          andThen (sigPhase os) (fun _ =>
            preExecPhase 0 c.preExec))))
  match setup with
  | (evs, some e) => (evs, .err e)
  | (evs, none) =>
    match maybe_possible_paths with
    | some possible_paths =>
      let r := execSearch os.execve possible_paths none
      (evs ++ r.1, r.2)
    | none =>
      match os.execve c.program with
      | .replaced => (evs ++ [Ev.execveCall c.program], .replaced c.program)
      | .failed e => (evs ++ [Ev.execveCall c.program], .err e)

theorem andThen_ok (evs : List Ev) (b : Unit → List Ev × Option IoError) :
    andThen (evs, none) b = (evs ++ (b ()).1, (b ()).2) := rfl

theorem andThen_err (evs : List Ev) (e : IoError) (b : Unit → List Ev × Option IoError) :
    andThen (evs, some e) b = (evs, some e) := rfl

/-- C8: in the child-side setup sequence, with both ids configured, the
group id is applied before the user id; the ignored best-effort
`setgroups` clearing sits immediately before the user-id change (so the
whole run is independent of its result); and a failing group-id or user-id
change aborts the sequence at once with the encountered OS error. -/
theorem do_exec_credential_order
    (c : Command) (stdio : ChildPipes) (os : DoExecOS)
    (pp : Option (List (List Nat))) (g u : Nat) (evs : List Ev)
    (hg : c.gid = some g) (hu : c.uid = some u)
    (hstdio : stdioPhase stdio os = (evs, none)) :
    (∀ r r', do_exec c stdio { os with setgroups := r } pp =
             do_exec c stdio { os with setgroups := r' } pp) ∧
    (∀ e, os.setgid g = .error e →
       do_exec c stdio os pp = (evs ++ [Ev.setgid g], .err e)) ∧
    (∀ e, os.setgid g = .ok () → os.setuid u = .error e →
       do_exec c stdio os pp =
         (evs ++ [Ev.setgid g, Ev.setgroups, Ev.setuid u], .err e)) ∧
    (os.setgid g = .ok () → os.setuid u = .ok () →
       ∃ tl, (do_exec c stdio os pp).1 =
         evs ++ [Ev.setgid g, Ev.setgroups, Ev.setuid u] ++ tl) := by
  refine ⟨fun r r' => rfl, ?_, ?_, ?_⟩
  · intro e he
    simp [do_exec, andThen, hstdio, credPhase, hg, he]
  · intro e hgok hue
    simp [do_exec, andThen, hstdio, credPhase, hg, hgok, hu, hue]
  · intro hgok huok
    have hcred : credPhase c os = ([Ev.setgid g, Ev.setgroups, Ev.setuid u], none) := by
      simp [credPhase, andThen, hg, hgok, hu, huok]
    rcases htl : andThen (cwdPhase c os) (fun _ =>
        andThen (sigPhase os) (fun _ => preExecPhase 0 c.preExec)) with ⟨tevs, tres⟩
    have hsetup : andThen (stdioPhase stdio os) (fun _ =>
        andThen (credPhase c os) (fun _ =>
          andThen (cwdPhase c os) (fun _ =>
            andThen (sigPhase os) (fun _ => preExecPhase 0 c.preExec)))) =
        (evs ++ ([Ev.setgid g, Ev.setgroups, Ev.setuid u] ++ tevs), tres) := by
      simp only [hstdio, andThen_ok, hcred, htl]
    cases tres with
    | some e =>
      refine ⟨tevs, ?_⟩
      simp [do_exec, hsetup]
    | none =>
      cases pp with
      | some paths =>
        refine ⟨tevs ++ (execSearch os.execve paths none).1, ?_⟩
        simp [do_exec, hsetup]
      | none =>
        cases hex : os.execve c.program with
        | replaced =>
          refine ⟨tevs ++ [Ev.execveCall c.program], ?_⟩
          simp [do_exec, hsetup, hex]
        | failed e =>
          refine ⟨tevs ++ [Ev.execveCall c.program], ?_⟩
          simp [do_exec, hsetup, hex]

/-- A concrete all-succeeding child-side OS for witnesses: every call
succeeds except the final exec, which fails with ENOENT. -/
def sampleOS : DoExecOS where
  dup2 := fun _ _ => .ok ()
  setgid := fun _ => .ok ()
  setgroups := .ok ()
  setuid := fun _ => .ok ()
  chdir := fun _ => .ok ()
  sigreset := .ok ()
  sigpipe := .ok ()
  execve := fun _ => .failed { kind := .notFound, code := some 2 }

/-- A concrete command for witnesses: program `ls`, gid 5, uid 7, no
overrides otherwise. -/
def sampleCommand : Command where
  program := [108, 115]
  args := []
  envOverride := none
  cwd := none
  gid := some 5
  uid := some 7
  preExec := []
  envSawPath := false

/-- Witness for C8: with both ids set and every syscall succeeding, the
trace opens with `setgid 5`, then the ignored `setgroups`, then `setuid 7`. -/
theorem do_exec_credential_order_witness :
    sampleCommand.gid = some 5 ∧ sampleCommand.uid = some 7 ∧
    stdioPhase { stdin := none, stdout := none, stderr := none } sampleOS = ([], none) ∧
    sampleOS.setgid 5 = .ok () ∧ sampleOS.setuid 7 = .ok () ∧
    ∃ tl, (do_exec sampleCommand { stdin := none, stdout := none, stderr := none }
        sampleOS none).1 = [] ++ [Ev.setgid 5, Ev.setgroups, Ev.setuid 7] ++ tl :=
  ⟨rfl, rfl, rfl, rfl, rfl,
   (do_exec_credential_order sampleCommand
     { stdin := none, stdout := none, stderr := none } sampleOS none 5 7 []
     rfl rfl rfl).2.2.2 rfl rfl⟩

/-- `struct Process { pid: pid_t, status: Option<ExitStatus> }`; the raw
`ExitStatus` payload is the `c_int` that `waitpid` writes. -/
structure Process where
  pid : Int
  status : Option Int
deriving DecidableEq, Repr

/-- `Command::posix_spawn`: the fast-spawn attempt.  `capable` is the
platform capability gate (`false` on platforms whose `posix_spawn` cannot
report not-found directly, and on linux-gnu when the glibc version probe is
below 2.24 or unknown); `setupErr` is the first failing `cvt` among the
file-action/attribute setup calls; `ret` is `posix_spawnp`'s return value
and `pid` the pid it wrote.  `Ok(None)` sends the caller to the fallback
path. -/
def posix_spawn (c : Command) (capable : Bool) (setupErr : Option IoError)
    (ret : Int) (pid : Int) : Except IoError (Option Process) :=
  if c.cwd.isSome || c.gid.isSome || c.uid.isSome || c.envSawPath ||
      c.preExec.length != 0 then
    .ok none
  else if !capable then
    .ok none
  else
    match setupErr with
    | some e => .error e
    | none =>
      if ret = 0 then .ok (some { pid := pid, status := none })
      else .error (fromRawOsError ret)

/-- C5: the fast-spawn strategy is skipped (falling back) whenever a working
directory, group id, user id, PATH-affecting environment override, or any
pre-exec callback is present, or the capability probe fails; when attempted,
a zero facility return yields a live `Process` with unobserved status, and a
non-zero return yields the error carrying that code with no process. -/
theorem posix_spawn_spec (c : Command) (capable : Bool) (setupErr : Option IoError)
    (ret pid : Int) :
    (c.cwd.isSome = true ∨ c.gid.isSome = true ∨ c.uid.isSome = true ∨
       c.envSawPath = true ∨ c.preExec ≠ [] →
       posix_spawn c capable setupErr ret pid = .ok none) ∧
    (capable = false → posix_spawn c capable setupErr ret pid = .ok none) ∧
    (c.cwd = none → c.gid = none → c.uid = none → c.envSawPath = false →
      c.preExec = [] → capable = true →
      (ret = 0 → posix_spawn c capable none ret pid =
         .ok (some { pid := pid, status := none })) ∧
      (ret ≠ 0 → posix_spawn c capable none ret pid =
         .error (fromRawOsError ret))) := by
  refine ⟨?_, ?_, ?_⟩
  · intro h
    rcases h with h | h | h | h | h <;>
      simp [posix_spawn, h]
  · intro h
    subst h
    simp only [posix_spawn]
    split
    · rfl
    · rfl
  · intro h1 h2 h3 h4 h5 h6
    subst h6
    constructor
    · intro h0
      simp [posix_spawn, h1, h2, h3, h4, h5, h0]
    · intro h0
      simp [posix_spawn, h1, h2, h3, h4, h5, h0]

/-- Witness for C5: a command with a pre-exec callback falls back; the
sample command (which carries credentials) falls back; an unencumbered
command with a capable platform and a zero return spawns with unobserved
status. -/
theorem posix_spawn_spec_witness :
    ({ sampleCommand with preExec := [Except.ok ()] } : Command).preExec ≠ [] ∧
    posix_spawn { sampleCommand with preExec := [Except.ok ()] } true none 0 33 =
      .ok none ∧
    posix_spawn { sampleCommand with gid := none, uid := none } true none 0 33 =
      .ok (some { pid := 33, status := none }) := by
  refine ⟨by simp, ?_, ?_⟩
  · exact (posix_spawn_spec { sampleCommand with preExec := [Except.ok ()] }
      true none 0 33).1 (Or.inr (Or.inr (Or.inr (Or.inr (by simp)))))
  · exact ((posix_spawn_spec { sampleCommand with gid := none, uid := none }
      true none 0 33).2.2 rfl rfl rfl rfl rfl rfl).1 rfl

/-- `Process::wait`: return the cached status if observed; otherwise consult
the OS once (`cvt_r(|| waitpid(pid, &mut status, 0))`, whose transparent
EINTR retrying `os` summarizes), cache and return the decoded status.
Result components: the returned value, the updated handle, and the number of
OS process-table consultations made. -/
def Process.wait (p : Process) (os : Except IoError Int) :
    Except IoError Int × Process × Nat :=
  match p.status with
  | some s => (.ok s, p, 0)
  | none =>
    match os with
    | .error e => (.error e, p, 1)
    | .ok st => (.ok st, { p with status := some st }, 1)

/-- `Process::try_wait`: non-blocking variant; `os = .ok none` models
`waitpid(…, WNOHANG)` returning 0 (child still running), in which case
nothing is cached. -/
def Process.try_wait (p : Process) (os : Except IoError (Option Int)) :
    Except IoError (Option Int) × Process × Nat :=
  match p.status with
  | some s => (.ok (some s), p, 0)
  | none =>
    match os with
    | .error e => (.error e, p, 1)
    | .ok none => (.ok none, p, 1)
    | .ok (some st) => (.ok (some st), { p with status := some st }, 1)

/-- `Process::kill`: refuse with an invalid-input error and no OS signal
call once the status has been observed; otherwise issue the termination
signal once (`cvt(kill(pid, SIGKILL)).map(|_| ())`, summarized by `os`). -/
def Process.kill (p : Process) (os : Except IoError Unit) :
    Except IoError Unit × Nat :=
  match p.status with
  | some _ => (.error { kind := .invalidInput, code := none }, 0)
  | none => (os.map (fun _ => ()), 1)

/-- C6: the exit status moves from unobserved to observed at most once and
is fixed thereafter: once observed, `wait` returns the cached status with
the handle unchanged and no OS consultation, so two consecutive `wait`s
return identical statuses with exactly one consultation in total;
`try_wait` on a still-running child returns the running indication without
caching, and otherwise caches and returns like `wait`. -/
theorem wait_caching_spec (p : Process) (s st : Int) :
    (p.status = some s → ∀ os, Process.wait p os = (.ok s, p, 0)) ∧
    (p.status = some s → ∀ os, Process.try_wait p os = (.ok (some s), p, 0)) ∧
    (p.status = none → ∀ os2,
       Process.wait p (.ok st) = (.ok st, { p with status := some st }, 1) ∧
       Process.wait { p with status := some st } os2 =
         (.ok st, { p with status := some st }, 0)) ∧
    (p.status = none → Process.try_wait p (.ok none) = (.ok none, p, 1)) ∧
    (p.status = none → Process.try_wait p (.ok (some st)) =
       (.ok (some st), { p with status := some st }, 1)) := by
  refine ⟨?_, ?_, ?_, ?_, ?_⟩
  · intro h os
    simp [Process.wait, h]
  · intro h os
    simp [Process.try_wait, h]
  · intro h os2
    constructor
    · simp [Process.wait, h]
    · simp [Process.wait]
  · intro h
    simp [Process.try_wait, h]
  · intro h
    simp [Process.try_wait, h]

/-- Witness for C6 on a pid-4 handle: an unobserved handle waits once for
status 9, and the second wait returns the cached 9 without consulting the
OS; `try_wait` on the unobserved handle with a still-running child caches
nothing. -/
theorem wait_caching_spec_witness :
    (Process.wait { pid := 4, status := none } (.ok 9) =
       (.ok 9, { pid := 4, status := some 9 }, 1) ∧
     Process.wait { pid := 4, status := some 9 } (.error { kind := .otherKind, code := some 3 }) =
       (.ok 9, { pid := 4, status := some 9 }, 0)) ∧
    Process.try_wait { pid := 4, status := none } (.ok none) =
      (.ok none, { pid := 4, status := none }, 1) := by
  have h := wait_caching_spec { pid := 4, status := none } 0 9
  exact ⟨h.2.2.1 rfl (.error { kind := .otherKind, code := some 3 }), h.2.2.2.1 rfl⟩

/-- C7: `kill` on a handle whose status has been observed — for instance
right after a successful `wait` — fails with the invalid-input error and
makes no OS signal call; on an unobserved handle it issues the termination
signal once, surfacing the OS result. -/
theorem kill_after_wait_spec (p : Process) :
    (∀ s, p.status = some s → ∀ os,
       Process.kill p os = (.error { kind := .invalidInput, code := none }, 0)) ∧
    (p.status = none → ∀ st osk,
       Process.kill (Process.wait p (.ok st)).2.1 osk =
         (.error { kind := .invalidInput, code := none }, 0)) ∧
    (p.status = none → ∀ os, Process.kill p os = (os.map (fun _ => ()), 1)) := by
  refine ⟨?_, ?_, ?_⟩
  · intro s h os
    simp [Process.kill, h]
  · intro h st osk
    simp [Process.wait, Process.kill, h]
  · intro h os
    simp [Process.kill, h]

/-- Witness for C7 on a pid-4 handle: after waiting (status 9), kill fails
invalid-input with zero signal calls; before waiting it issues exactly one
signal call. -/
theorem kill_after_wait_spec_witness :
    Process.kill (Process.wait { pid := 4, status := none } (.ok 9)).2.1 (.ok ()) =
      (.error { kind := .invalidInput, code := none }, 0) ∧
    Process.kill { pid := 4, status := none } (.ok ()) = (.ok (), 1) := by
  have h := kill_after_wait_spec { pid := 4, status := none }
  exact ⟨h.2.1 rfl 9 (.ok ()), h.2.2 rfl (.ok ())⟩

theorem toI32_inj (x y : Nat) (hx : x < 2 ^ 32) (hy : y < 2 ^ 32)
    (h : toI32 x = toI32 y) : x = y := by
  unfold toI32 at h
  split at h <;> split at h <;> omega

theorem combine_footer_inj (a b c d : Nat) (ha : a < 256) (hb : b < 256)
    (hc : c < 256) (hd : d < 256)
    (h : combine CLOEXEC_MSG_FOOTER = combine [a, b, c, d]) :
    ([a, b, c, d] : List Nat) = CLOEXEC_MSG_FOOTER := by
  have h2 : combine [a, b, c, d] = toI32 (a * 2 ^ 24 + b * 2 ^ 16 + c * 2 ^ 8 + d) := by
    simp only [combine, List.getD, List.get?_cons_zero, List.get?_cons_succ,
      Option.getD_some]
    rw [combine4 a b c d hb hc hd]
  have h3 : combine CLOEXEC_MSG_FOOTER =
      toI32 (78 * 2 ^ 24 + 79 * 2 ^ 16 + 69 * 2 ^ 8 + 88) := by
    simp only [combine, CLOEXEC_MSG_FOOTER, List.getD, List.get?_cons_zero,
      List.get?_cons_succ, Option.getD_some]
    rw [combine4 78 79 69 88 (by omega) (by omega) (by omega)]
  rw [h2, h3] at h
  have h4 := toI32_inj _ _ (by omega) (by omega) h
  simp only [CLOEXEC_MSG_FOOTER, List.cons.injEq, and_true]
  omega

theorem combine_inj_footer (l : List Nat) (hlen : l.length = 4)
    (hb : ∀ x ∈ l, x < 256) (h : combine CLOEXEC_MSG_FOOTER = combine l) :
    l = CLOEXEC_MSG_FOOTER := by
  rcases l with _ | ⟨a, l⟩
  · simp at hlen
  rcases l with _ | ⟨b, l⟩
  · simp at hlen
  rcases l with _ | ⟨c, l⟩
  · simp at hlen
  rcases l with _ | ⟨d, l⟩
  · simp at hlen
  rcases l with _ | ⟨e, l⟩
  · exact combine_footer_inj a b c d (hb a (by simp)) (hb b (by simp))
      (hb c (by simp)) (hb d (by simp)) h
  · simp at hlen

/-- One result of `input.read(&mut bytes)` on the error pipe: a successful
read returning these bytes, an EINTR interruption, or another read error. -/
inductive ReadResult
| ok (bytes : List Nat)
| interrupted
| readErr (e : IoError)
deriving DecidableEq, Repr

/-- How the parent's read loop on the error pipe ends; `reaped` records
whether the child was collected (`p.wait()`) before returning or
panicking. -/
inductive SpawnReadOutcome
| success
| failure (errno : Int) (reaped : Bool)
| panicFault (reaped : Bool)
deriving DecidableEq, Repr

/-- The parent's `loop` over the error pipe after `fork`: 0 bytes read
means the exec succeeded; exactly 8 bytes must carry the footer (checked
via `combine`, and a mismatch panics before the child is reaped), the
leading 4 bytes decode as the OS error and the child is reaped before the
error is returned; EINTR retries the read; any other read error and any
other byte count reap the child and panic.  `none` models a read list
exhausted by EINTRs: the loop is still retrying. -/
def readLoop : List ReadResult → Option SpawnReadOutcome
| [] => none
| ReadResult.ok bytes :: _ =>
  if bytes.length = 0 then some .success
  else if bytes.length = 8 then
    if combine CLOEXEC_MSG_FOOTER = combine (bytes.drop 4) then
      some (.failure (combine (bytes.take 4)) true)
    else some (.panicFault false)
  else some (.panicFault true)
| ReadResult.interrupted :: rest => readLoop rest
| ReadResult.readErr _ :: _ => some (.panicFault true)

/-- Modelled from the spec: `saw_nul()` — the flag set by `process_common`
(outside this tree) while converting the program, arguments and environment
data to C strings; per the spec it is set exactly when an embedded NUL byte
occurs in the program, any argument, or any environment datum. -/
def Command.saw_nul (c : Command) : Bool :=
  c.program.contains 0 || c.args.any (fun a => a.contains 0) ||
    (match c.envOverride with
     | some items => items.any (fun v => v.contains 0)
     | none => false)

/-- Externally visible stages of `Command::spawn`, in program order. -/
inductive SpawnEv
| setupIoCall
| posixSpawnCall
| pipeCall
| forkCall
deriving DecidableEq, Repr

/-- Results of a `Command::spawn` call, as observed by the caller:
a live process, an `io::Error`, a panic (protocol violation), or — for a
read list exhausted by EINTRs — a loop still retrying. -/
inductive SpawnResult
| ok (p : Process)
| err (e : IoError)
| panicked (reaped : Bool)
| looping
deriving DecidableEq, Repr

/-- The OS responses `spawn` consumes: the `setup_io` outcome, the
`posix_spawn` inputs (capability gate, setup failure, facility return and
written pid), the parent's PATH for `compute_possible_paths`, the
`anon_pipe` outcome, the `fork` outcome (parent view: child pid), and the
successive reads on the error pipe. -/
structure SpawnOS where
  setup_io : Except IoError Unit
  capable : Bool
  psSetupErr : Option IoError
  psRet : Int
  psPid : Int
  parentPath : Option (List Nat)
  anonPipe : Except IoError Unit
  forkRes : Except IoError Int
  reads : List ReadResult

/-- The stage trace of a spawn that reached the fallback path's read loop. -/
def fallbackTrace : List SpawnEv :=
  [.setupIoCall, .posixSpawnCall, .pipeCall, .forkCall]

/-- `Command::spawn` (parent side): NUL check, stdio setup, `posix_spawn`
attempt, candidate-path computation (pure, feeding the child), pipe
creation, `fork`, then the error-pipe protocol.  The first component lists
the stages reached, in order. -/
def spawn (c : Command) (os : SpawnOS) : List SpawnEv × SpawnResult :=
  if c.saw_nul then
    ([], .err { kind := .invalidInput, code := none })
  else
    match os.setup_io with
    | .error e => ([.setupIoCall], .err e)
    | .ok _ =>
      match posix_spawn c os.capable os.psSetupErr os.psRet os.psPid with
      | .error e => ([.setupIoCall, .posixSpawnCall], .err e)
      | .ok (some p) => ([.setupIoCall, .posixSpawnCall], .ok p)
      | .ok none =>
        match os.anonPipe with
        | .error e => ([.setupIoCall, .posixSpawnCall, .pipeCall], .err e)
        | .ok _ =>
          match os.forkRes with
          | .error e => (fallbackTrace, .err e)
          | .ok pid =>
            (fallbackTrace,
             match readLoop os.reads with
             | none => .looping
             | some .success => .ok { pid := pid, status := none }
             | some (.failure errno _) => .err (fromRawOsError errno)
             | some (.panicFault r) => .panicked r)

/-- C1: in the fallback spawn path (fallback forced, pipe and fork
succeeding), the parent's read loop behaves as specified: an
EINTR-interrupted read is retried without limit; a 0-byte read means exec
succeeded and `spawn` returns the live process with unobserved status; an
8-byte read whose trailing 4 bytes equal the marker decodes the leading 4
bytes as the OS error, reaps the child, and `spawn` returns that error; an
8-byte read with a marker mismatch is an unrecoverable fault (panic before
reaping); any other byte count is an unrecoverable protocol violation
(panic after reaping). -/
theorem spawn_fallback_pipe_protocol
    (c : Command) (os : SpawnOS) (pid : Int)
    (hnul : c.saw_nul = false)
    (hio : os.setup_io = .ok ())
    (hps : posix_spawn c os.capable os.psSetupErr os.psRet os.psPid = .ok none)
    (hpipe : os.anonPipe = .ok ())
    (hfork : os.forkRes = .ok pid) :
    (∀ k rest, readLoop (List.replicate k ReadResult.interrupted ++ rest) =
       readLoop rest) ∧
    (os.reads = [ReadResult.ok []] →
       spawn c os = (fallbackTrace, .ok { pid := pid, status := none })) ∧
    (∀ bs, bs.length = 8 → bs.drop 4 = CLOEXEC_MSG_FOOTER →
       os.reads = [ReadResult.ok bs] →
       readLoop os.reads = some (.failure (combine (bs.take 4)) true) ∧
       spawn c os = (fallbackTrace, .err (fromRawOsError (combine (bs.take 4))))) ∧
    (∀ bs, bs.length = 8 → (∀ x ∈ bs, x < 256) → bs.drop 4 ≠ CLOEXEC_MSG_FOOTER →
       readLoop [ReadResult.ok bs] = some (.panicFault false)) ∧
    (∀ bs, bs.length ≠ 0 → bs.length ≠ 8 →
       readLoop [ReadResult.ok bs] = some (.panicFault true)) := by
  refine ⟨?_, ?_, ?_, ?_, ?_⟩
  · intro k rest
    induction k with
    | zero => simp
    | succ n ih => simpa [List.replicate_succ, readLoop] using ih
  · intro h
    simp [spawn, hnul, hio, hps, hpipe, hfork, h, readLoop]
  · intro bs h8 hfoot hr
    have hloop : readLoop [ReadResult.ok bs] =
        some (.failure (combine (bs.take 4)) true) := by
      simp [readLoop, h8, hfoot]
    refine ⟨by rw [hr]; exact hloop, ?_⟩
    simp [spawn, hnul, hio, hps, hpipe, hfork, hr, hloop]
  · intro bs h8 hlt hne
    have hlen : (bs.drop 4).length = 4 := by simp [h8]
    have hcond : ¬ combine CLOEXEC_MSG_FOOTER = combine (bs.drop 4) := by
      intro h
      exact hne (combine_inj_footer (bs.drop 4) hlen
        (fun x hx => hlt x (List.mem_of_mem_drop hx)) h)
    simp [readLoop, h8, hcond]
  · intro bs h0 h8
    simp [readLoop, h0, h8]

/-- A concrete spawn-side OS for witnesses: everything succeeds, the fork
returns pid 42, and the single read returns 0 bytes (exec succeeded). -/
def sampleSpawnOS : SpawnOS where
  setup_io := .ok ()
  capable := true
  psSetupErr := none
  psRet := 0
  psPid := 0
  parentPath := none
  anonPipe := .ok ()
  forkRes := .ok 42
  reads := [ReadResult.ok []]

/-- Witness for C1: the sample command (carrying credentials, hence
ineligible for the fast path) with the sample OS spawns pid 42 live via
the 0-byte read, and a 3-byte read is a protocol violation. -/
theorem spawn_fallback_pipe_protocol_witness :
    sampleCommand.saw_nul = false ∧
    spawn sampleCommand sampleSpawnOS = (fallbackTrace, .ok { pid := 42, status := none }) ∧
    readLoop [ReadResult.ok [1, 2, 3]] = some (.panicFault true) := by
  have h := spawn_fallback_pipe_protocol sampleCommand sampleSpawnOS 42 rfl rfl rfl rfl rfl
  exact ⟨rfl, h.2.1 rfl, h.2.2.2.2 [1, 2, 3] (by decide) (by decide)⟩

/-- C9: an embedded NUL byte in the program, any argument, or any
environment datum makes `spawn` fail synchronously with the distinguished
invalid-input error, before any stdio setup, fast-spawn attempt, pipe
creation or fork (the stage trace is empty), and with no process created. -/
theorem spawn_nul_check (c : Command) (os : SpawnOS)
    (h : c.program.contains 0 = true ∨ (∃ a ∈ c.args, a.contains 0 = true) ∨
         (∃ items, c.envOverride = some items ∧ ∃ v ∈ items, v.contains 0 = true)) :
    spawn c os = ([], .err { kind := .invalidInput, code := none }) := by
  have hnul : c.saw_nul = true := by
    rcases h with h | ⟨a, ha, hav⟩ | ⟨items, hi, v, hv, hvv⟩
    · unfold Command.saw_nul
      rw [h]
      simp
    · unfold Command.saw_nul
      have h2 : c.args.any (fun x => x.contains 0) = true :=
        List.any_eq_true.mpr ⟨a, ha, hav⟩
      rw [h2]
      simp
    · unfold Command.saw_nul
      rw [hi]
      have h2 : items.any (fun x => x.contains 0) = true :=
        List.any_eq_true.mpr ⟨v, hv, hvv⟩
      simp [h2]
      exact Or.inr ⟨v, hv, by simpa using hvv⟩
  simp [spawn, hnul]

/-- Witness for C9: a program byte string containing a NUL byte. -/
theorem spawn_nul_check_witness :
    ({ sampleCommand with program := [108, 0] } : Command).program.contains 0 = true ∧
    spawn { sampleCommand with program := [108, 0] } sampleSpawnOS =
      ([], .err { kind := .invalidInput, code := none }) :=
  ⟨rfl, spawn_nul_check { sampleCommand with program := [108, 0] } sampleSpawnOS
    (Or.inl rfl)⟩
